import Mathlib

/-!
Verification development for the consensus core of this repository
(epoch manager, quorum store worker, execution proxy).

Each definition below is a shallow embedding of a function from the
Rust sources, with the file and function it comes from named in its
doc comment.  Machine integers (u64, usize) are modelled as Nat; the
source never relies on wrap-around for these values (epochs, rounds,
indices, byte counts).  Fallible calls are modelled with Except
(error payloads are irrelevant to the claims, so the error type is
Unit), asynchronous channel sends and network broadcasts are modelled
as emitted action lists, and external collaborators (the database,
signature verification, the executor) are oracle parameters.
-/

namespace AptosConsensus

/-- LogicalTime = (epoch, round), from consensus_types::proof_of_store. -/
structure LogicalTime where
  ltEpoch : Nat
  ltRound : Nat
deriving Repr, DecidableEq

/-! ### Epoch manager: verified-event routing (epoch_manager.rs, process_event) -/

/-- Discriminants of round_manager::VerifiedEvent that process_event routes on. -/
inductive VerifiedEventE where
  | proposalMsg
  | voteMsg
  | syncInfo
  | commitVote
  | commitDecision
  | signedDigest
  | fragment
  | batch
  | proofOfStoreBroadcast
  | localTimeout
deriving Repr, DecidableEq

/-- Destination a verified event is pushed to by EpochManager::process_event. -/
inductive RouteDest where
  | wrapperChannel
  | quorumStoreListener (idx : Nat)
  | bufferManager
  | roundManager
deriving Repr, DecidableEq

/-- Number of network-listener workers for Fragment messages, as computed in
EpochManager::start_round_manager (epoch_manager.rs lines 826-829):
usize::max(1, verifier.len() / num_nodes_per_worker_handles). -/
def numNetworkWorkersForFragment (numValidators numNodesPerWorkerHandles : Nat) : Nat :=
  max 1 (numValidators / numNodesPerWorkerHandles)

/-- Routing switch of EpochManager::process_event (epoch_manager.rs lines 1067-1127).
peerByte0 is peer_id.to_vec()[0], the first byte of the peer account address. -/
def processEventRoute (numWorkersForFragment peerByte0 : Nat) :
    VerifiedEventE → RouteDest
  | .proofOfStoreBroadcast => .wrapperChannel
  | .batch => .quorumStoreListener 0
  | .signedDigest => .quorumStoreListener 1
  | .fragment => .quorumStoreListener (peerByte0 % numWorkersForFragment + 2)
  | .commitVote => .bufferManager
  | .commitDecision => .bufferManager
  | .proposalMsg => .roundManager
  | .voteMsg => .roundManager
  | .syncInfo => .roundManager
  | .localTimeout => .roundManager

/-! ### Epoch manager: epoch checking and epoch proof exchange
(epoch_manager.rs: check_epoch, process_different_epoch, process_epoch_retrieval,
process_message) -/

/-- Network sends performed by the epoch-mismatch handling paths. -/
inductive NetAction where
  | sendEpochChangeProof (toPeer startEpoch endEpoch : Nat)
  | sendEpochRetrievalRequest (toPeer startEpoch endEpoch : Nat)
deriving Repr, DecidableEq

/-- Shape of network_interface::ConsensusMsg as far as check_epoch matches on it.
The nine epoch-carrying variants (ProposalMsg, SyncInfo, VoteMsg, CommitVoteMsg,
CommitDecisionMsg, SignedDigestMsg, FragmentMsg, BatchMsg, ProofOfStoreBroadcastMsg)
are collapsed to epochCarrying with the discriminant of the event they convert to. -/
inductive ConsensusMsgE where
  | epochCarrying (ev : VerifiedEventE) (msgEpoch : Nat)
  | epochChangeProof (proofEpoch : Nat)
  | epochRetrievalRequest (startEpoch endEpoch : Nat)
  | other
deriving Repr, DecidableEq

/-- EpochManager::process_epoch_retrieval (epoch_manager.rs lines 341-363):
fetch get_epoch_ending_ledger_infos(start, end) from the db and send the proof
back to the peer; a db failure propagates as an error with nothing sent.
The db oracle returns .ok () when the epoch-ending ledger infos are available. -/
def process_epoch_retrieval (db : Nat → Nat → Except Unit Unit)
    (startEpoch endEpoch peer : Nat) : Except Unit (List NetAction) :=
  match db startEpoch endEpoch with
  | .error _ => .error ()
  | .ok _ => .ok [NetAction.sendEpochChangeProof peer startEpoch endEpoch]

/-- EpochManager::process_different_epoch (epoch_manager.rs lines 365-422).
selfHasVotingPower is verifier.get_voting_power(&self.author).is_some(). -/
def process_different_epoch (current : Nat) (selfHasVotingPower : Bool)
    (db : Nat → Nat → Except Unit Unit) (diffEpoch peer : Nat) :
    Except Unit (List NetAction) :=
  if diffEpoch < current then
    if selfHasVotingPower then
      -- discard message from lower epoch (sampled debug log)
      .ok []
    else
      process_epoch_retrieval db diffEpoch current peer
  else if current < diffEpoch then
    .ok [NetAction.sendEpochRetrievalRequest peer current diffEpoch]
  else
    -- bail: same epoch should not come to process_different_epoch
    .error ()

/-- Result of EpochManager::check_epoch: Ok(Some(event)) / Ok(None) / the
initiate_new_epoch call on a current-epoch change proof / Err. -/
inductive CheckEpochOut where
  | unverifiedEvent (ev : VerifiedEventE)
  | handled
  | initiateNewEpoch (proofEpoch : Nat)
  | err
deriving Repr, DecidableEq

/-- EpochManager::check_epoch (epoch_manager.rs lines 1007-1065), paired with the
network sends it performs. -/
def check_epoch (current : Nat) (selfHasVotingPower : Bool)
    (db : Nat → Nat → Except Unit Unit) (peer : Nat) :
    ConsensusMsgE → CheckEpochOut × List NetAction
  | .epochCarrying ev e =>
    if e = current then
      (.unverifiedEvent ev, [])
    else
      match process_different_epoch current selfHasVotingPower db e peer with
      | .ok acts => (.handled, acts)
      | .error _ => (.err, [])
  | .epochChangeProof pe =>
    if pe = current then (.initiateNewEpoch pe, []) else (.err, [])
  | .epochRetrievalRequest s e =>
    if e ≤ current then
      match process_epoch_retrieval db s e peer with
      | .ok acts => (.handled, acts)
      | .error _ => (.err, [])
    else
      -- ensure! fails: request beyond what we have locally
      (.err, [])
  | .other => (.err, [])

/-- Result of EpochManager::process_message. startedNewEpoch marks the branch
where check_epoch runs initiate_new_epoch (modelled separately below). -/
inductive ProcessMsgOut where
  | routed (dest : RouteDest)
  | handledMsg
  | startedNewEpoch (proofEpoch : Nat)
  | verifyFailed
  | msgError
deriving Repr, DecidableEq

/-- EpochManager::process_message (epoch_manager.rs lines 964-1005): check_epoch,
then for a same-epoch message verify signatures against the current validator set
(verifyOk is the oracle for UnverifiedEvent::verify) and route via process_event. -/
def process_message (current : Nat) (selfHasVotingPower : Bool)
    (db : Nat → Nat → Except Unit Unit) (peer peerByte0 : Nat)
    (verifyOk : Bool) (numWorkersForFragment : Nat) (msg : ConsensusMsgE) :
    ProcessMsgOut × List NetAction :=
  match check_epoch current selfHasVotingPower db peer msg with
  | (.unverifiedEvent ev, acts) =>
    if verifyOk then
      (.routed (processEventRoute numWorkersForFragment peerByte0 ev), acts)
    else
      (.verifyFailed, acts)
  | (.handled, acts) => (.handledMsg, acts)
  | (.initiateNewEpoch e, acts) => (.startedNewEpoch e, acts)
  | (.err, acts) => (.msgError, acts)

/-! ### Epoch manager: leader reputation history fallback
(epoch_manager.rs, create_proposer_election, LeaderReputation branch, lines 281-303) -/

/-- History-map computation of EpochManager::create_proposer_election for the
LeaderReputation election (epoch_manager.rs lines 281-303).  fetchLIs is
aptos_db().get_epoch_ending_ledger_infos (returning the list of epoch-ending
ledger infos, each an abstract token), extract is extract_epoch_to_proposers.
On any failure in the fetch-ensure-extract pipeline, unwrap_or_else logs the
error and falls back to the singleton map current epoch -> current proposers. -/
def create_epoch_to_proposers (epoch histCount : Nat) (proposers : List Nat)
    (fetchLIs : Nat → Nat → Except Unit (List Nat))
    (extract : List Nat → Except Unit (List (Nat × List Nat))) :
    List (Nat × List Nat) :=
  let firstEpochToConsider := max 1 (epoch - histCount)
  if firstEpochToConsider < epoch then
    match fetchLIs (firstEpochToConsider - 1) epoch with
    | .error _ => [(epoch, proposers)]
    | .ok lis =>
      if lis.length = epoch - (firstEpochToConsider - 1) then
        match extract lis with
        | .error _ => [(epoch, proposers)]
        | .ok m => m
      else
        -- the ensure! on the number of returned ledger infos fails
        [(epoch, proposers)]
  else
    [(epoch, proposers)]

/-! ### Epoch manager: quorum store committed-round baseline
(epoch_manager.rs, spawn_quorum_store, lines 500-530) -/

/-- Commit info of the latest ledger info with signatures. -/
structure LedgerInfoE where
  liEpoch : Nat
  liRound : Nat
deriving Repr, DecidableEq

/-- The last_committed_round computed by EpochManager::spawn_quorum_store
(epoch_manager.rs lines 504-516) and passed to QuorumStore::new. -/
def last_committed_round (currentEpoch : Nat) (latestLI : LedgerInfoE) : Nat :=
  if latestLI.liEpoch = currentEpoch then latestLI.liRound else 0

/-! ### Epoch manager: processor shutdown and epoch change
(epoch_manager.rs: shutdown_current_processor lines 686-725,
initiate_new_epoch lines 424-448) -/

/-- Observable steps of shutdown_current_processor and initiate_new_epoch. -/
inductive ShutAction where
  | closeRoundManagerAwait
  | shutdownWrapperAwait
  | clearBufferMsgTx
  | sendBufferResetAwait (stop : Bool)
  | dropBlockRetrievalTx
  | syncTo
  | awaitReconfig
deriving Repr, DecidableEq

/-- The Option-valued actor handles held by EpochManager that
shutdown_current_processor takes: round_manager_close_tx,
wrapper_quorum_store_tx and buffer_manager_reset_tx
(buffer_manager_msg_tx and block_retrieval_tx are cleared unconditionally). -/
structure EpochMgrHandles where
  hasRoundManagerClose : Bool
  hasWrapper : Bool
  hasBufferReset : Bool
deriving Repr, DecidableEq

/-- EpochManager::shutdown_current_processor (epoch_manager.rs lines 686-725):
in order, close the round manager and await its ack (when present), signal the
quorum-store wrapper and await its ack (when present), clear
buffer_manager_msg_tx, send the buffer manager a ResetRequest with stop = true
and await its ack (when present), and drop block_retrieval_tx. -/
def shutdown_current_processor (h : EpochMgrHandles) : List ShutAction :=
  (if h.hasRoundManagerClose then [ShutAction.closeRoundManagerAwait] else [])
    ++ (if h.hasWrapper then [ShutAction.shutdownWrapperAwait] else [])
    ++ [ShutAction.clearBufferMsgTx]
    ++ (if h.hasBufferReset then [ShutAction.sendBufferResetAwait true] else [])
    ++ [ShutAction.dropBlockRetrievalTx]

/-- Outcome of EpochManager::initiate_new_epoch: early error on a bad proof,
panic (via expect) when sync_to fails, or success. -/
inductive InitEpochOutcome where
  | errInvalidProof
  | panicSyncFailed
  | ok
deriving Repr, DecidableEq

/-- EpochManager::initiate_new_epoch (epoch_manager.rs lines 424-448): verify
the proof (verifyOk oracle; failure returns an error before any shutdown),
shut the current processor down, sync the commit state computer to the new
ledger info (syncOk oracle; failure panics through expect since the actors are
already torn down), then await the reconfiguration notification. -/
def initiate_new_epoch (verifyOk syncOk : Bool) (h : EpochMgrHandles) :
    InitEpochOutcome × List ShutAction :=
  if verifyOk = false then
    (.errInvalidProof, [])
  else if syncOk = false then
    (.panicSyncFailed, shutdown_current_processor h ++ [ShutAction.syncTo])
  else
    (.ok, shutdown_current_processor h ++ [ShutAction.syncTo, ShutAction.awaitReconfig])

/-! ### Execution proxy (state_computer.rs, ExecutionProxy) -/

/-- Abstract payload of a block (a list of proof-of-store references). -/
abbrev PayloadE := Nat

/-- The fields of an ExecutedBlock that ExecutionProxy::commit reads. -/
structure ExecutedBlockE where
  blkId : Nat
  blkEpoch : Nat
  blkRound : Nat
  blkPayload : Option PayloadE
deriving Repr, DecidableEq

/-- Suspension points and shared-resource accesses of the three StateComputer
operations of ExecutionProxy (state_computer.rs). lockWriteMutex is the
acquisition of the write_mutex AsyncMutex. -/
inductive ProxyAction where
  | lockWriteMutex
  | getBlockData
  | executeBlock
  | notifyFailedTxns
  | commitBlocksToExecutor
  | sendStateSyncNotification
  | sendCommitNotification
  | executorFinish
  | syncToTarget
  | executorReset
deriving Repr, DecidableEq

/-- ExecutionProxy::compute (state_computer.rs lines 108-183): get the block
data from the data manager (propagating failure), execute the block on the
executor via spawn_blocking (propagating failure), then notify mempool of
failed transactions.  It never touches write_mutex.  Returns the result paired
with the trace of actions performed. -/
def ExecutionProxy.compute (getDataOk execOk : Bool) :
    Except Unit Unit × List ProxyAction :=
  if getDataOk = false then
    (.error (), [ProxyAction.getBlockData])
  else if execOk = false then
    (.error (), [ProxyAction.getBlockData, ProxyAction.executeBlock])
  else
    (.ok (), [ProxyAction.getBlockData, ProxyAction.executeBlock,
      ProxyAction.notifyFailedTxns])

/-- The per-block loop of ExecutionProxy::commit (state_computer.rs lines
202-215): for each block, record its payload when present, fetch its data
(propagating failure), and fold the running maxima of epoch and round.
Returns the accumulated (latest_epoch, latest_round, payloads) and the trace
of data-manager calls. -/
def commitScan (getData : ExecutedBlockE → Except Unit (List Nat)) :
    List ExecutedBlockE → Nat → Nat → List PayloadE →
    Except Unit (Nat × Nat × List PayloadE) × List ProxyAction
  | [], latestEpoch, latestRound, payloads =>
    (.ok (latestEpoch, latestRound, payloads), [])
  | b :: bs, latestEpoch, latestRound, payloads =>
    let payloads' := payloads ++ b.blkPayload.toList
    match getData b with
    | .error _ => (.error (), [ProxyAction.getBlockData])
    | .ok _ =>
      let rest := commitScan getData bs (max latestEpoch b.blkEpoch)
        (max latestRound b.blkRound) payloads'
      (rest.1, ProxyAction.getBlockData :: rest.2)

/-- Result of ExecutionProxy::commit: the returned value, the action trace,
and the commit notifications (epoch, round, payloads) pushed onto
async_commit_notifier. -/
structure CommitOut where
  result : Except Unit Unit
  actions : List ProxyAction
  commitNotifications : List (Nat × Nat × List PayloadE)
deriving Repr

/-- ExecutionProxy::commit (state_computer.rs lines 186-253): acquire
write_mutex, loop over the blocks accumulating payloads and the maxima of
epoch and round, commit the block ids on the executor, send the state-sync
notification, then - only when the block list is non-empty (skip_clean) -
send exactly one commit notification (latest_epoch, latest_round, payloads). -/
def ExecutionProxy.commit (getData : ExecutedBlockE → Except Unit (List Nat))
    (blocks : List ExecutedBlockE) : CommitOut :=
  match commitScan getData blocks 0 0 [] with
  | (.error _, acts) =>
    ⟨.error (), ProxyAction.lockWriteMutex :: acts, []⟩
  | (.ok (latestEpoch, latestRound, payloads), acts) =>
    if blocks.isEmpty then
      ⟨.ok (), ProxyAction.lockWriteMutex :: (acts
        ++ [ProxyAction.commitBlocksToExecutor,
            ProxyAction.sendStateSyncNotification]), []⟩
    else
      ⟨.ok (), ProxyAction.lockWriteMutex :: (acts
        ++ [ProxyAction.commitBlocksToExecutor,
            ProxyAction.sendStateSyncNotification,
            ProxyAction.sendCommitNotification]),
        [(latestEpoch, latestRound, payloads)]⟩

/-- ExecutionProxy::sync_to (state_computer.rs lines 256-299): acquire
write_mutex, call executor.finish(), send a commit notification
(target epoch, target round, empty payloads), sync to the target through the
state-sync notifier (syncOk oracle), then reset the executor. -/
def ExecutionProxy.sync_to (syncOk : Bool) (targetEpoch targetRound : Nat) :
    CommitOut :=
  ⟨if syncOk then .ok () else .error (),
    [ProxyAction.lockWriteMutex, ProxyAction.executorFinish,
      ProxyAction.sendCommitNotification, ProxyAction.syncToTarget,
      ProxyAction.executorReset],
    [(targetEpoch, targetRound, [])]⟩

/-! ### Quorum store worker (quorum_store/quorum_store.rs, QuorumStore)

The worker drives its BatchAggregator on AppendToBatch / EndBatch commands
from the wrapper.  batch_aggregator.rs itself is not among the sources, so
the aggregator is modelled from the spec below. -/

/-- A serialized transaction, as a byte list (only its length matters for
the byte accounting). -/
abbrev SerializedTxn := List Nat

/-- Total serialized size of a fragment payload. -/
def txnListBytes (txns : List SerializedTxn) : Nat :=
  (txns.map List.length).sum

/-- State of an in-progress batch inside the aggregator: its batch id, the
next expected fragment id, the accumulated byte count, and the accumulated
payload (the rolling digest is a function of this payload). -/
structure OpenBatch where
  obBatchId : Nat
  obNextFragmentId : Nat
  obNumBytes : Nat
  obPayload : List SerializedTxn
deriving Repr, DecidableEq

/-- Aggregator state: none when no batch is in progress. -/
abbrev AggState := Option OpenBatch

/-- Modelled from the spec: batch_aggregator.rs is not among the sources.
BatchAggregator::append_transactions per spec section 4.3: append the fragment
payload to the in-memory buffer and update the rolling digest; fail if the
batch_id changes, if the fragment_id is not the expected next one (a fresh
batch starts at fragment_id 0), or if the total bytes exceed max_batch_bytes. -/
def append_transactions (maxBatchBytes : Nat) (s : AggState)
    (batchId fragmentId : Nat) (txns : List SerializedTxn) :
    Except Unit AggState :=
  match s with
  | none =>
    if fragmentId = 0 ∧ txnListBytes txns ≤ maxBatchBytes then
      .ok (some ⟨batchId, 1, txnListBytes txns, txns⟩)
    else
      .error ()
  | some ob =>
    if batchId = ob.obBatchId ∧ fragmentId = ob.obNextFragmentId
        ∧ ob.obNumBytes + txnListBytes txns ≤ maxBatchBytes then
      .ok (some ⟨ob.obBatchId, ob.obNextFragmentId + 1,
        ob.obNumBytes + txnListBytes txns, ob.obPayload ++ txns⟩)
    else
      .error ()

/-- Modelled from the spec: batch_aggregator.rs is not among the sources.
BatchAggregator::end_batch per spec section 4.3: append the final fragment
under the same checks, finalize, and return (num_bytes, full_payload) - the
digest is the hash of the full payload and is represented by the payload. -/
def end_batch (maxBatchBytes : Nat) (s : AggState)
    (batchId fragmentId : Nat) (txns : List SerializedTxn) :
    Except Unit (Nat × List SerializedTxn) :=
  match append_transactions maxBatchBytes s batchId fragmentId txns with
  | .error e => .error e
  | .ok none => .error ()
  | .ok (some ob) => .ok (ob.obNumBytes, ob.obPayload)

/-- Fragment as built by Fragment::new in handle_append_to_batch /
handle_end_batch (quorum_store.rs lines 234-241 and 266-273). -/
structure FragmentE where
  fragEpoch : Nat
  fragBatchId : Nat
  fragId : Nat
  fragPayload : List SerializedTxn
  maybeExpiration : Option LogicalTime
  fragAuthor : Nat
deriving Repr, DecidableEq

/-- PersistRequest sent to the batch store in handle_end_batch
(quorum_store.rs lines 289-295); the digest is a function of the payload. -/
structure PersistRequestE where
  prAuthor : Nat
  prPayload : List SerializedTxn
  prNumBytes : Nat
  prExpiration : LogicalTime
deriving Repr, DecidableEq

/-- SignedDigestInfo for the InitProof command sent to the proof builder in
handle_end_batch (quorum_store.rs lines 275-287); the digest is represented
by the payload it hashes. -/
structure SignedDigestInfoE where
  sdPayload : List SerializedTxn
  sdExpiration : LogicalTime
  sdTxnCount : Nat
  sdNumBytes : Nat
deriving Repr, DecidableEq

/-- Mutable state of the QuorumStore worker touched by the command loop:
fragment_id and the batch aggregator. -/
structure QSWorkerState where
  fragmentId : Nat
  aggState : AggState
deriving Repr, DecidableEq

/-- QuorumStoreCommand (quorum_store.rs lines 35-44); the ProofReturnChannel
payload of EndBatch is not modelled. -/
inductive QSCommand where
  | appendToBatch (txns : List SerializedTxn) (batchId : Nat)
  | endBatch (txns : List SerializedTxn) (batchId : Nat) (expTime : LogicalTime)
  | shutdown
deriving Repr, DecidableEq

/-- Effects of one iteration of the QuorumStore worker loop. -/
structure QSStepOut where
  nextState : QSWorkerState
  broadcastFragments : List FragmentE
  persistRequests : List PersistRequestE
  initProofs : List SignedDigestInfoE
deriving Repr, DecidableEq

/-- One iteration of QuorumStore::start (quorum_store.rs lines 307-393) with
handle_append_to_batch (lines 222-251) and handle_end_batch (lines 253-305)
inlined.  Returns none exactly when the aggregator call fails, i.e. when the
unreachable! in the error branch of the match would panic. -/
def qsStep (epoch myPeerId maxBatchBytes : Nat) (s : QSWorkerState) :
    QSCommand → Option QSStepOut
  | .shutdown => some ⟨s, [], [], []⟩
  | .appendToBatch txns batchId =>
    match append_transactions maxBatchBytes s.aggState batchId s.fragmentId txns with
    | .error _ => none
    | .ok agg' =>
      some ⟨⟨s.fragmentId + 1, agg'⟩,
        [⟨epoch, batchId, s.fragmentId, txns, none, myPeerId⟩], [], []⟩
  | .endBatch txns batchId expTime =>
    match end_batch maxBatchBytes s.aggState batchId s.fragmentId txns with
    | .error _ => none
    | .ok (numBytes, payload) =>
      some ⟨⟨0, none⟩,
        [⟨epoch, batchId, s.fragmentId, txns, some expTime, myPeerId⟩],
        [⟨myPeerId, payload, numBytes, expTime⟩],
        [⟨payload, expTime, payload.length, numBytes⟩]⟩

/-- The QuorumStore worker loop over a list of commands: stops at Shutdown,
returns none if any aggregator call fails (the unreachable! branch). -/
def qsRun (epoch myPeerId maxBatchBytes : Nat) :
    QSWorkerState → List QSCommand → Option QSWorkerState
  | s, [] => some s
  | s, QSCommand.shutdown :: _ => some s
  | s, c :: cs =>
    match qsStep epoch myPeerId maxBatchBytes s c with
    | none => none
    | some out => qsRun epoch myPeerId maxBatchBytes out.nextState cs

/-- The command sequence the wrapper issues for one batch: zero or more
AppendToBatch commands followed by one EndBatch, all with the same batch id
(quorum_store_wrapper.rs is summarized by spec section 4.3 C6). -/
def batchCommands (batchId : Nat) (frags : List (List SerializedTxn))
    (lastTxns : List SerializedTxn) (expTime : LogicalTime) : List QSCommand :=
  frags.map (fun txns => QSCommand.appendToBatch txns batchId)
    ++ [QSCommand.endBatch lastTxns batchId expTime]

/-- Command sequences as produced by the quorum-store wrapper: a concatenation
of batches, each respecting max_batch_bytes in total. -/
inductive WrapperTrace (maxBatchBytes : Nat) : List QSCommand → Prop where
  | nil : WrapperTrace maxBatchBytes []
  | cons (batchId : Nat) (frags : List (List SerializedTxn))
      (lastTxns : List SerializedTxn) (expTime : LogicalTime)
      (rest : List QSCommand) :
      (frags.map txnListBytes).sum + txnListBytes lastTxns ≤ maxBatchBytes →
      WrapperTrace maxBatchBytes rest →
      WrapperTrace maxBatchBytes
        (batchCommands batchId frags lastTxns expTime ++ rest)

/-! ## Helper lemmas -/

/-- Unfolding lemma for qsRun on an AppendToBatch command. -/
theorem qsRun_append_cons (epoch myPeerId maxBatchBytes : Nat) (s : QSWorkerState)
    (txns : List SerializedTxn) (batchId : Nat) (cs : List QSCommand) :
    qsRun epoch myPeerId maxBatchBytes s (QSCommand.appendToBatch txns batchId :: cs)
      = match qsStep epoch myPeerId maxBatchBytes s (QSCommand.appendToBatch txns batchId) with
        | none => none
        | some out => qsRun epoch myPeerId maxBatchBytes out.nextState cs := rfl

/-- Unfolding lemma for qsRun on an EndBatch command. -/
theorem qsRun_end_cons (epoch myPeerId maxBatchBytes : Nat) (s : QSWorkerState)
    (txns : List SerializedTxn) (batchId : Nat) (expTime : LogicalTime)
    (cs : List QSCommand) :
    qsRun epoch myPeerId maxBatchBytes s (QSCommand.endBatch txns batchId expTime :: cs)
      = match qsStep epoch myPeerId maxBatchBytes s (QSCommand.endBatch txns batchId expTime) with
        | none => none
        | some out => qsRun epoch myPeerId maxBatchBytes out.nextState cs := rfl

/-- Running the worker from mid-batch state: if the aggregator holds an open
batch matching the worker fragment_id and the remaining fragments fit in the
byte budget, the appends and the final EndBatch all succeed and leave the
worker in the fresh state. -/
theorem qsRun_open_batch (epoch myPeerId maxBatchBytes batchId : Nat)
    (expTime : LogicalTime) (rest : List QSCommand) :
    ∀ (frags : List (List SerializedTxn)) (lastTxns : List SerializedTxn)
      (k bytes : Nat) (payload : List SerializedTxn),
      bytes + ((frags.map txnListBytes).sum + txnListBytes lastTxns) ≤ maxBatchBytes →
      qsRun epoch myPeerId maxBatchBytes ⟨k, some ⟨batchId, k, bytes, payload⟩⟩
          (frags.map (fun t => QSCommand.appendToBatch t batchId)
            ++ [QSCommand.endBatch lastTxns batchId expTime] ++ rest)
        = qsRun epoch myPeerId maxBatchBytes ⟨0, none⟩ rest
  | [], lastTxns, k, bytes, payload, hb => by
    have hbyte : bytes + txnListBytes lastTxns ≤ maxBatchBytes := by simpa using hb
    simp only [List.map_nil, List.nil_append, List.cons_append, List.nil_append]
    rw [qsRun_end_cons]
    simp [qsStep, end_batch, append_transactions, hbyte]
  | f :: fs, lastTxns, k, bytes, payload, hb => by
    have hbf : bytes + txnListBytes f ≤ maxBatchBytes := by
      simp only [List.map_cons, List.sum_cons] at hb
      omega
    have ih := qsRun_open_batch epoch myPeerId maxBatchBytes batchId expTime rest
      fs lastTxns (k + 1) (bytes + txnListBytes f) (payload ++ f)
      (by simp only [List.map_cons, List.sum_cons] at hb; omega)
    simp only [List.map_cons, List.cons_append]
    rw [qsRun_append_cons]
    simp only [qsStep, append_transactions, hbf, and_true, true_and, if_pos, and_self,
      reduceIte]
    simpa using ih

/-- A whole wrapper batch (appends then end) run from the fresh worker state
succeeds and returns the worker to the fresh state. -/
theorem qsRun_batch (epoch myPeerId maxBatchBytes batchId : Nat)
    (expTime : LogicalTime) (rest : List QSCommand)
    (frags : List (List SerializedTxn)) (lastTxns : List SerializedTxn)
    (hb : (frags.map txnListBytes).sum + txnListBytes lastTxns ≤ maxBatchBytes) :
    qsRun epoch myPeerId maxBatchBytes ⟨0, none⟩
        (batchCommands batchId frags lastTxns expTime ++ rest)
      = qsRun epoch myPeerId maxBatchBytes ⟨0, none⟩ rest := by
  cases frags with
  | nil =>
    have hbyte : txnListBytes lastTxns ≤ maxBatchBytes := by simpa using hb
    simp only [batchCommands, List.map_nil, List.nil_append, List.cons_append,
      List.nil_append]
    rw [qsRun_end_cons]
    simp [qsStep, end_batch, append_transactions, hbyte]
  | cons f fs =>
    have hbf : txnListBytes f ≤ maxBatchBytes := by
      simp only [List.map_cons, List.sum_cons] at hb
      omega
    simp only [batchCommands, List.map_cons, List.cons_append]
    rw [qsRun_append_cons]
    simp only [qsStep, append_transactions, hbf, and_true, if_pos, reduceIte]
    have ih := qsRun_open_batch epoch myPeerId maxBatchBytes batchId expTime rest
      fs lastTxns 1 (txnListBytes f) f
      (by simp only [List.map_cons, List.sum_cons] at hb; omega)
    simpa using ih

/-- The per-block loop of commit computes the running maxima and the payload
list when every data-manager fetch succeeds. -/
theorem commitScan_ok (getData : ExecutedBlockE → Except Unit (List Nat)) :
    ∀ (blocks : List ExecutedBlockE) (e r : Nat) (ps : List PayloadE),
      (∀ b ∈ blocks, ∃ d, getData b = Except.ok d) →
      (commitScan getData blocks e r ps).1
        = Except.ok ((blocks.map ExecutedBlockE.blkEpoch).foldl max e,
            (blocks.map ExecutedBlockE.blkRound).foldl max r,
            ps ++ blocks.filterMap ExecutedBlockE.blkPayload)
  | [], e, r, ps, _ => by simp [commitScan]
  | b :: bs, e, r, ps, h => by
    obtain ⟨d, hd⟩ := h b (List.mem_cons_self b bs)
    have ih := commitScan_ok getData bs (max e b.blkEpoch) (max r b.blkRound)
      (ps ++ b.blkPayload.toList) (fun x hx => h x (List.mem_cons_of_mem b hx))
    cases hp : b.blkPayload with
    | none =>
      rw [hp] at ih
      simp only [Option.toList] at ih
      simp only [List.append_nil] at ih
      simp [commitScan, hd, ih, hp, List.filterMap_cons]
    | some p =>
      rw [hp] at ih
      simp only [Option.toList] at ih
      simp [commitScan, hd, ih, hp, List.filterMap_cons]

/-! ## Claims -/

/-- C1: a verified Batch event is pushed to listener channel 0, a SignedDigest
event to listener channel 1, and a Fragment event from peer p to listener
channel 2 + (first byte of the peer id mod num_network_workers_for_fragment),
where num_network_workers_for_fragment =
max(1, number of validators / num_nodes_per_worker_handles). -/
theorem c1_quorum_store_event_routing
    (numValidators numNodesPerWorkerHandles peerByte0 : Nat) :
    processEventRoute (numNetworkWorkersForFragment numValidators numNodesPerWorkerHandles)
        peerByte0 VerifiedEventE.batch = RouteDest.quorumStoreListener 0
    ∧ processEventRoute (numNetworkWorkersForFragment numValidators numNodesPerWorkerHandles)
        peerByte0 VerifiedEventE.signedDigest = RouteDest.quorumStoreListener 1
    ∧ processEventRoute (numNetworkWorkersForFragment numValidators numNodesPerWorkerHandles)
        peerByte0 VerifiedEventE.fragment
      = RouteDest.quorumStoreListener
          (2 + peerByte0 % max 1 (numValidators / numNodesPerWorkerHandles)) := by
  refine ⟨rfl, rfl, ?_⟩
  simp [processEventRoute, numNetworkWorkersForFragment, Nat.add_comm]

/-- C2: an epoch-carrying message with the current epoch is converted to an
unverified event, verified, and routed via process_event; with a lower epoch
it is dropped when the local author has voting power, and answered with an
epoch-change proof from the message epoch to the current epoch otherwise;
with a higher epoch an epoch-retrieval request from the current epoch to the
message epoch is sent to the peer. -/
theorem c2_epoch_message_dispatch (current : Nat) (selfHasVotingPower : Bool)
    (db : Nat → Nat → Except Unit Unit) (peer peerByte0 : Nat)
    (verifyOk : Bool) (numWorkersForFragment : Nat) (ev : VerifiedEventE) (e : Nat) :
    (e = current → verifyOk = true →
      process_message current selfHasVotingPower db peer peerByte0 verifyOk
          numWorkersForFragment (ConsensusMsgE.epochCarrying ev e)
        = (ProcessMsgOut.routed (processEventRoute numWorkersForFragment peerByte0 ev), []))
    ∧ (e < current → selfHasVotingPower = true →
      process_message current selfHasVotingPower db peer peerByte0 verifyOk
          numWorkersForFragment (ConsensusMsgE.epochCarrying ev e)
        = (ProcessMsgOut.handledMsg, []))
    ∧ (e < current → selfHasVotingPower = false → db e current = Except.ok () →
      process_message current selfHasVotingPower db peer peerByte0 verifyOk
          numWorkersForFragment (ConsensusMsgE.epochCarrying ev e)
        = (ProcessMsgOut.handledMsg, [NetAction.sendEpochChangeProof peer e current]))
    ∧ (current < e →
      process_message current selfHasVotingPower db peer peerByte0 verifyOk
          numWorkersForFragment (ConsensusMsgE.epochCarrying ev e)
        = (ProcessMsgOut.handledMsg, [NetAction.sendEpochRetrievalRequest peer current e])) := by
  refine ⟨?_, ?_, ?_, ?_⟩
  · intro heq hv
    subst heq
    simp [process_message, check_epoch, hv]
  · intro hlt hpow
    have hne : e ≠ current := Nat.ne_of_lt hlt
    simp [process_message, check_epoch, process_different_epoch, hne, hlt, hpow]
  · intro hlt hpow hdb
    have hne : e ≠ current := Nat.ne_of_lt hlt
    simp [process_message, check_epoch, process_different_epoch,
      process_epoch_retrieval, hne, hlt, hpow, hdb]
  · intro hgt
    have hne : ¬(e = current) := by omega
    have hnlt : ¬(e < current) := by omega
    simp [process_message, check_epoch, process_different_epoch, hne, hnlt, hgt]

/-- C2 witness: the four dispatch outcomes at concrete epochs. -/
theorem c2_epoch_message_dispatch_witness :
    process_message 5 true (fun _ _ => Except.ok ()) 9 0 true 1
        (ConsensusMsgE.epochCarrying VerifiedEventE.batch 5)
      = (ProcessMsgOut.routed (RouteDest.quorumStoreListener 0), [])
    ∧ process_message 5 true (fun _ _ => Except.ok ()) 9 0 true 1
        (ConsensusMsgE.epochCarrying VerifiedEventE.batch 3)
      = (ProcessMsgOut.handledMsg, [])
    ∧ process_message 5 false (fun _ _ => Except.ok ()) 9 0 true 1
        (ConsensusMsgE.epochCarrying VerifiedEventE.batch 3)
      = (ProcessMsgOut.handledMsg, [NetAction.sendEpochChangeProof 9 3 5])
    ∧ process_message 5 false (fun _ _ => Except.ok ()) 9 0 true 1
        (ConsensusMsgE.epochCarrying VerifiedEventE.batch 7)
      = (ProcessMsgOut.handledMsg, [NetAction.sendEpochRetrievalRequest 9 5 7]) :=
  ⟨(c2_epoch_message_dispatch 5 true (fun _ _ => Except.ok ()) 9 0 true 1
      VerifiedEventE.batch 5).1 rfl rfl,
   (c2_epoch_message_dispatch 5 true (fun _ _ => Except.ok ()) 9 0 true 1
      VerifiedEventE.batch 3).2.1 (by decide) rfl,
   (c2_epoch_message_dispatch 5 false (fun _ _ => Except.ok ()) 9 0 true 1
      VerifiedEventE.batch 3).2.2.1 (by decide) rfl rfl,
   (c2_epoch_message_dispatch 5 false (fun _ _ => Except.ok ()) 9 0 true 1
      VerifiedEventE.batch 7).2.2.2 (by decide)⟩

/-- C3: on an epoch-change proof for the current epoch, initiate_new_epoch
performs, in order, the round-manager close with ack, the wrapper stop with
ack, the buffer-manager sender clear and reset request with stop = true, the
block-retrieval sender drop, and only then the sync of the commit state
computer, panicking if that sync fails. -/
theorem c3_epoch_change_shutdown_order (verifyOk syncOk : Bool)
    (h : EpochMgrHandles) (hrm : h.hasRoundManagerClose = true)
    (hw : h.hasWrapper = true) (hbr : h.hasBufferReset = true)
    (hv : verifyOk = true) :
    (initiate_new_epoch verifyOk syncOk h).2
      = [ShutAction.closeRoundManagerAwait, ShutAction.shutdownWrapperAwait,
          ShutAction.clearBufferMsgTx, ShutAction.sendBufferResetAwait true,
          ShutAction.dropBlockRetrievalTx, ShutAction.syncTo]
        ++ (if syncOk then [ShutAction.awaitReconfig] else [])
    ∧ (syncOk = false →
      (initiate_new_epoch verifyOk syncOk h).1 = InitEpochOutcome.panicSyncFailed) := by
  subst hv
  cases syncOk <;>
    simp [initiate_new_epoch, shutdown_current_processor, hrm, hw, hbr]

/-- C3 witness: concrete shutdown trace with a failing sync. -/
theorem c3_epoch_change_shutdown_order_witness :
    (initiate_new_epoch true false ⟨true, true, true⟩).1
      = InitEpochOutcome.panicSyncFailed
    ∧ (initiate_new_epoch true false ⟨true, true, true⟩).2
      = [ShutAction.closeRoundManagerAwait, ShutAction.shutdownWrapperAwait,
          ShutAction.clearBufferMsgTx, ShutAction.sendBufferResetAwait true,
          ShutAction.dropBlockRetrievalTx, ShutAction.syncTo]
        ++ (if false then [ShutAction.awaitReconfig] else []) :=
  ⟨(c3_epoch_change_shutdown_order true false ⟨true, true, true⟩ rfl rfl rfl rfl).2 rfl,
   (c3_epoch_change_shutdown_order true false ⟨true, true, true⟩ rfl rfl rfl rfl).1⟩

/-- C4: the fragment broadcast for an AppendToBatch command carries no expiry
and the worker increments fragment_id by 1; the fragment broadcast for an
EndBatch command carries the batch expiry LogicalTime and the worker resets
fragment_id to 0 (so each new batch starts at fragment_id 0 and only the
terminal fragment carries the expiry). -/
theorem c4_fragment_expiry_and_fragment_id (epoch myPeerId maxBatchBytes : Nat)
    (s : QSWorkerState) (txns : List SerializedTxn) (batchId : Nat)
    (expTime : LogicalTime) (outA outE : QSStepOut) :
    (qsStep epoch myPeerId maxBatchBytes s (QSCommand.appendToBatch txns batchId)
        = some outA →
      outA.broadcastFragments = [⟨epoch, batchId, s.fragmentId, txns, none, myPeerId⟩]
      ∧ outA.nextState.fragmentId = s.fragmentId + 1)
    ∧ (qsStep epoch myPeerId maxBatchBytes s (QSCommand.endBatch txns batchId expTime)
        = some outE →
      outE.broadcastFragments
          = [⟨epoch, batchId, s.fragmentId, txns, some expTime, myPeerId⟩]
      ∧ outE.nextState.fragmentId = 0) := by
  constructor
  · intro h
    rcases ha : append_transactions maxBatchBytes s.aggState batchId s.fragmentId txns
      with _ | agg'
    · simp [qsStep, ha] at h
    · simp only [qsStep, ha] at h
      rw [Option.some_inj] at h
      subst h
      exact ⟨rfl, rfl⟩
  · intro h
    rcases ha : end_batch maxBatchBytes s.aggState batchId s.fragmentId txns
      with _ | result
    · simp [qsStep, ha] at h
    · rcases result with ⟨numBytes, payload⟩
      simp only [qsStep, ha] at h
      rw [Option.some_inj] at h
      subst h
      exact ⟨rfl, rfl⟩

/-- C4 witness: a concrete EndBatch step carrying the expiry and resetting
fragment_id, after a concrete AppendToBatch step carrying none. -/
theorem c4_fragment_expiry_and_fragment_id_witness :
    qsStep 1 7 100 ⟨0, none⟩ (QSCommand.appendToBatch [[1, 2]] 0)
      = some ⟨⟨1, some ⟨0, 1, 2, [[1, 2]]⟩⟩, [⟨1, 0, 0, [[1, 2]], none, 7⟩], [], []⟩
    ∧ qsStep 1 7 100 ⟨1, some ⟨0, 1, 2, [[1, 2]]⟩⟩ (QSCommand.endBatch [[3]] 0 ⟨1, 5⟩)
      = some ⟨⟨0, none⟩, [⟨1, 0, 1, [[3]], some ⟨1, 5⟩, 7⟩],
          [⟨7, [[1, 2], [3]], 3, ⟨1, 5⟩⟩], [⟨[[1, 2], [3]], ⟨1, 5⟩, 2, 3⟩]⟩
    ∧ (⟨⟨1, some ⟨0, 1, 2, [[1, 2]]⟩⟩, [⟨1, 0, 0, [[1, 2]], none, 7⟩], [], []⟩
        : QSStepOut).nextState.fragmentId = 0 + 1
    ∧ (⟨⟨0, none⟩, [⟨1, 0, 1, [[3]], some ⟨1, 5⟩, 7⟩],
          [⟨7, [[1, 2], [3]], 3, ⟨1, 5⟩⟩], [⟨[[1, 2], [3]], ⟨1, 5⟩, 2, 3⟩]⟩
        : QSStepOut).nextState.fragmentId = 0 :=
  ⟨by decide, by decide,
   ((c4_fragment_expiry_and_fragment_id 1 7 100 ⟨0, none⟩ [[1, 2]] 0 ⟨1, 5⟩
      ⟨⟨1, some ⟨0, 1, 2, [[1, 2]]⟩⟩, [⟨1, 0, 0, [[1, 2]], none, 7⟩], [], []⟩
      ⟨⟨0, none⟩, [], [], []⟩).1 (by decide)).2,
   ((c4_fragment_expiry_and_fragment_id 1 7 100 ⟨1, some ⟨0, 1, 2, [[1, 2]]⟩⟩ [[3]] 0 ⟨1, 5⟩
      ⟨⟨0, none⟩, [], [], []⟩
      ⟨⟨0, none⟩, [⟨1, 0, 1, [[3]], some ⟨1, 5⟩, 7⟩],
        [⟨7, [[1, 2], [3]], 3, ⟨1, 5⟩⟩], [⟨[[1, 2], [3]], ⟨1, 5⟩, 2, 3⟩]⟩).2
      (by decide)).2⟩

/-- C5 counterexample: the claim says compute, commit and sync_to all acquire
write_mutex, but ExecutionProxy::compute performs no write_mutex acquisition
at all (state_computer.rs lines 108-183 contain no write_mutex.lock()). -/
theorem c5_compute_does_not_lock_counterexample :
    ProxyAction.lockWriteMutex ∉ (ExecutionProxy.compute true true).2 := by
  decide

/-- C5 (amended): the write_mutex async mutex serializes commit and sync_to -
each of those two operations acquires it first and holds it for its duration -
but compute does not acquire it. -/
theorem c5_write_mutex_serializes_commit_and_sync (getDataOk execOk syncOk : Bool)
    (getData : ExecutedBlockE → Except Unit (List Nat))
    (blocks : List ExecutedBlockE) (targetEpoch targetRound : Nat) :
    (ExecutionProxy.commit getData blocks).actions.head?
        = some ProxyAction.lockWriteMutex
    ∧ (ExecutionProxy.sync_to syncOk targetEpoch targetRound).actions.head?
        = some ProxyAction.lockWriteMutex
    ∧ ProxyAction.lockWriteMutex ∉ (ExecutionProxy.compute getDataOk execOk).2 := by
  refine ⟨?_, rfl, ?_⟩
  · unfold ExecutionProxy.commit
    rcases hscan : commitScan getData blocks 0 0 [] with ⟨res, acts⟩
    cases res with
    | error e => simp
    | ok v =>
      rcases v with ⟨latestEpoch, latestRound, payloads⟩
      cases hb : blocks.isEmpty <;> simp [hb]
  · cases getDataOk <;> cases execOk <;> decide

/-- C6: when leader-reputation history from previous epochs is requested and
the fetch of epoch-ending ledger infos fails or returns an unexpected number
of ledger infos, the election history map degrades to the current epoch
mapped to the current proposers instead of failing construction. -/
theorem c6_leader_reputation_history_fallback (epoch histCount : Nat)
    (proposers : List Nat)
    (fetchLIs : Nat → Nat → Except Unit (List Nat))
    (extract : List Nat → Except Unit (List (Nat × List Nat)))
    (hHist : max 1 (epoch - histCount) < epoch)
    (hFail : fetchLIs (max 1 (epoch - histCount) - 1) epoch = Except.error ()
      ∨ ∃ lis, fetchLIs (max 1 (epoch - histCount) - 1) epoch = Except.ok lis
          ∧ lis.length ≠ epoch - (max 1 (epoch - histCount) - 1)) :
    create_epoch_to_proposers epoch histCount proposers fetchLIs extract
      = [(epoch, proposers)] := by
  simp only [create_epoch_to_proposers]
  rw [if_pos hHist]
  rcases hFail with hErr | ⟨lis, hOk, hLen⟩
  · rw [hErr]
  · rw [hOk]
    simp [hLen]

/-- C6 witness: a failing fetch at epoch 3 with two epochs of history falls
back to the current-epoch singleton map. -/
theorem c6_leader_reputation_history_fallback_witness :
    max 1 (3 - 2) < 3
    ∧ create_epoch_to_proposers 3 2 [10, 11] (fun _ _ => Except.error ())
        (fun _ => Except.ok []) = [(3, [10, 11])] :=
  ⟨by decide,
   c6_leader_reputation_history_fallback 3 2 [10, 11] (fun _ _ => Except.error ())
     (fun _ => Except.ok []) (by decide) (Or.inl rfl)⟩

/-- C7: an EpochRetrievalRequest is answered with the epoch-ending ledger
infos from start_epoch to end_epoch exactly when end_epoch is at most the
current epoch (given the db has them); a request with end_epoch beyond the
current epoch produces an error and no response. -/
theorem c7_epoch_retrieval_response (current : Nat) (selfHasVotingPower : Bool)
    (db : Nat → Nat → Except Unit Unit) (peer peerByte0 : Nat)
    (verifyOk : Bool) (numWorkersForFragment startE endE : Nat) :
    (endE ≤ current → db startE endE = Except.ok () →
      process_message current selfHasVotingPower db peer peerByte0 verifyOk
          numWorkersForFragment (ConsensusMsgE.epochRetrievalRequest startE endE)
        = (ProcessMsgOut.handledMsg, [NetAction.sendEpochChangeProof peer startE endE]))
    ∧ (current < endE →
      process_message current selfHasVotingPower db peer peerByte0 verifyOk
          numWorkersForFragment (ConsensusMsgE.epochRetrievalRequest startE endE)
        = (ProcessMsgOut.msgError, [])) := by
  constructor
  · intro hle hdb
    simp [process_message, check_epoch, process_epoch_retrieval, hle, hdb]
  · intro hgt
    have hnle : ¬(endE ≤ current) := by omega
    simp [process_message, check_epoch, hnle]

/-- C7 witness: a request within the current epoch is answered, one beyond it
is rejected with no response. -/
theorem c7_epoch_retrieval_response_witness :
    process_message 5 true (fun _ _ => Except.ok ()) 9 0 true 1
        (ConsensusMsgE.epochRetrievalRequest 2 4)
      = (ProcessMsgOut.handledMsg, [NetAction.sendEpochChangeProof 9 2 4])
    ∧ process_message 5 true (fun _ _ => Except.ok ()) 9 0 true 1
        (ConsensusMsgE.epochRetrievalRequest 2 7)
      = (ProcessMsgOut.msgError, []) :=
  ⟨(c7_epoch_retrieval_response 5 true (fun _ _ => Except.ok ()) 9 0 true 1 2 4).1
     (by decide) rfl,
   (c7_epoch_retrieval_response 5 true (fun _ _ => Except.ok ()) 9 0 true 1 2 7).2
     (by decide)⟩

/-- C8: over any command sequence the wrapper can issue (per batch, appends
then one end, with a fixed batch id and a total within max_batch_bytes), the
worker loop never takes the aggregator error branch: qsRun never returns
none, so the unreachable! in handle_append_to_batch / handle_end_batch is
never hit for own fragments. -/
theorem c8_own_fragments_never_error (epoch myPeerId maxBatchBytes : Nat)
    (cmds : List QSCommand) (ht : WrapperTrace maxBatchBytes cmds) :
    (qsRun epoch myPeerId maxBatchBytes ⟨0, none⟩ cmds).isSome = true := by
  induction ht with
  | nil => rfl
  | cons batchId frags lastTxns expTime rest hb htrest ih =>
    rw [qsRun_batch epoch myPeerId maxBatchBytes batchId expTime rest frags
      lastTxns hb]
    exact ih

/-- C8 witness: a concrete two-fragment batch runs without hitting the error
branch. -/
theorem c8_own_fragments_never_error_witness :
    WrapperTrace 100 (batchCommands 0 [[[1, 2]]] [[3]] ⟨1, 5⟩ ++ [])
    ∧ (qsRun 1 7 100 ⟨0, none⟩
        (batchCommands 0 [[[1, 2]]] [[3]] ⟨1, 5⟩ ++ [])).isSome = true :=
  ⟨WrapperTrace.cons 0 [[[1, 2]]] [[3]] ⟨1, 5⟩ [] (by decide) WrapperTrace.nil,
   c8_own_fragments_never_error 1 7 100 _
     (WrapperTrace.cons 0 [[[1, 2]]] [[3]] ⟨1, 5⟩ [] (by decide) WrapperTrace.nil)⟩

/-- C9: commit on an empty block list returns Ok with no commit notification;
on a non-empty list (with every data fetch succeeding) it sends exactly one
commit notification carrying the maximum epoch and maximum round over the
blocks and the payloads of the blocks that have one, in block order. -/
theorem c9_commit_notification (getData : ExecutedBlockE → Except Unit (List Nat))
    (blocks : List ExecutedBlockE) :
    ((ExecutionProxy.commit getData []).result = Except.ok ()
      ∧ (ExecutionProxy.commit getData []).commitNotifications = [])
    ∧ (blocks ≠ [] → (∀ b ∈ blocks, ∃ d, getData b = Except.ok d) →
      (ExecutionProxy.commit getData blocks).commitNotifications
        = [((blocks.map ExecutedBlockE.blkEpoch).foldl max 0,
            (blocks.map ExecutedBlockE.blkRound).foldl max 0,
            blocks.filterMap ExecutedBlockE.blkPayload)]) := by
  constructor
  · exact ⟨rfl, rfl⟩
  · intro hne hok
    have hscan := commitScan_ok getData blocks 0 0 [] hok
    have hemp : blocks.isEmpty = false := by
      cases blocks with
      | nil => exact absurd rfl hne
      | cons a l => rfl
    unfold ExecutionProxy.commit
    rcases h : commitScan getData blocks 0 0 [] with ⟨res, acts⟩
    rw [h] at hscan
    simp only at hscan
    subst hscan
    simp [hemp]

/-- C9 witness: an empty commit sends nothing; a concrete two-block commit
sends one notification with the max epoch, max round, and the single payload. -/
theorem c9_commit_notification_witness :
    ([⟨1, 2, 7, some 3⟩, ⟨2, 2, 9, none⟩] ≠ ([] : List ExecutedBlockE))
    ∧ (ExecutionProxy.commit (fun _ => Except.ok []) []).commitNotifications = []
    ∧ (ExecutionProxy.commit (fun _ => Except.ok [])
        [⟨1, 2, 7, some 3⟩, ⟨2, 2, 9, none⟩]).commitNotifications
      = [(2, 9, [3])] := by
  refine ⟨by decide, (c9_commit_notification (fun _ => Except.ok []) []).1.2, ?_⟩
  have h := (c9_commit_notification (fun _ => Except.ok [])
    [⟨1, 2, 7, some 3⟩, ⟨2, 2, 9, none⟩]).2 (by decide) (fun b _ => ⟨[], rfl⟩)
  rw [h]
  decide

/-- C10: the last_committed_round passed by spawn_quorum_store equals the
commit round of the latest ledger info when its commit epoch is the current
epoch, and 0 otherwise. -/
theorem c10_quorum_store_committed_round_baseline (currentEpoch : Nat)
    (latestLI : LedgerInfoE) :
    (latestLI.liEpoch = currentEpoch →
      last_committed_round currentEpoch latestLI = latestLI.liRound)
    ∧ (latestLI.liEpoch ≠ currentEpoch →
      last_committed_round currentEpoch latestLI = 0) := by
  constructor <;> intro h <;> simp [last_committed_round, h]

/-- C10 witness: same-epoch ledger info keeps its round, older-epoch ledger
info resets the baseline to 0. -/
theorem c10_quorum_store_committed_round_baseline_witness :
    last_committed_round 5 ⟨5, 42⟩ = 42 ∧ last_committed_round 5 ⟨4, 9⟩ = 0 :=
  ⟨(c10_quorum_store_committed_round_baseline 5 ⟨5, 42⟩).1 rfl,
   (c10_quorum_store_committed_round_baseline 5 ⟨4, 9⟩).2 (by decide)⟩

end AptosConsensus
